import Mathlib

/-!
Verification of the zero-vector-MCP vector-memory engine.

This file gives a shallow embedding, in Lean 4, of the core algorithms of the
repository and proves (or refutes) the frozen behavioural claims about them:

* `PersonaMemoryManager.cleanupExpiredMemories` (decay-based cleanup),
* `VectorSimilarity.cosineSimilarity` / `dotProduct` / magnitude,
* the HNSW insertion level draw,
* the hybrid memory-retrieval ranking (`finalScore`, sort, truncate),
* `MemoryEfficientVectorStore.addVector` / `getMemoryStats`,
* `DatabaseRepository.deletePersona` and `getApiKeyByHash` (SQL semantics),
* `LocalTransformersProvider.generateDeterministicEmbedding` / `hashString`.

JavaScript numbers are modelled as `ℚ` where the source only uses field
operations on values that stay exactly representable, and as `ℝ` where the
source calls transcendental math (`Math.sqrt`, `Math.log`, `Math.sin`, …).
A JavaScript division whose result is non-finite (`NaN`/`Infinity`, which in
the code below can only arise from a zero denominator) is modelled as `none`
in an `Option` result.  JavaScript arrays are `List`s (with `push` appending
and `pop` taking the last element), `Map`s are association lists.
-/

/-! ## PersonaMemoryManager (persona memory lifecycle)

Embedding of `PersonaMemoryManager.cleanupExpiredMemories`:

```
async cleanupExpiredMemories() {
  const now = Date.now();
  for (const [personaId, persona] of this.personas) {
    const expiredTime = now - persona.memoryDecayTime;
    await this.vectorDB.deleteWhere({
      personaId: personaId,
      timestamp: { $lt: expiredTime }
    });
  }
}
```

A persona carries its decay window; a stored memory carries its owning
persona, creation timestamp and importance (the importance field is part of
the record model so the retention claim can be stated, whether or not the
code consults it). -/

structure Persona where
  id : String
  memoryDecayTime : Int
  deriving Repr, DecidableEq

structure MemoryRecord where
  personaId : String
  timestamp : Int
  importance : ℚ
  deriving Repr, DecidableEq

/-- `vectorDB.deleteWhere({personaId, timestamp: {$lt: cutoff}})`: remove every
record of the given persona whose timestamp is strictly below the cutoff. -/
def deleteWhere (mems : List MemoryRecord) (pid : String) (cutoff : Int) :
    List MemoryRecord :=
  mems.filter (fun m => !(m.personaId == pid && decide (m.timestamp < cutoff)))

/-- The cleanup loop: for each persona in turn, delete its memories older than
`now - memoryDecayTime`. -/
def cleanupExpiredMemories (now : Int) (ps : List Persona)
    (mems : List MemoryRecord) : List MemoryRecord :=
  match ps with
  | [] => mems
  | p :: rest =>
      cleanupExpiredMemories now rest (deleteWhere mems p.id (now - p.memoryDecayTime))

/-- A memory is age-expired for some persona in the list. -/
def memoryExpired (now : Int) (ps : List Persona) (m : MemoryRecord) : Bool :=
  ps.any (fun p => m.personaId == p.id && decide (m.timestamp < now - p.memoryDecayTime))

/-! ## VectorSimilarity

Embedding of `VectorSimilarity` (`dotProduct`, magnitude by
`Math.sqrt(vector.reduce((sum, val) => sum + val * val, 0))`, and
`cosineSimilarity` which divides the dot product by the product of the two
magnitudes with no zero guard). -/

/-- `dotProduct(a, b)`: the loop runs over the indices of `a`. -/
noncomputable def dotProduct (a b : List ℝ) : ℝ :=
  ∑ i ∈ Finset.range a.length, a.getD i 0 * b.getD i 0

/-- `vector.reduce((sum, val) => sum + val * val, 0)`. -/
def sumSquares (v : List ℝ) : ℝ :=
  v.foldl (fun s x => s + x * x) 0

/-- `getMagnitude`: `Math.sqrt` of the sum of squares. -/
noncomputable def magnitude (v : List ℝ) : ℝ :=
  Real.sqrt (sumSquares v)

/-- JavaScript floating-point division, with a non-finite result (`NaN` or
`±Infinity`, exactly the zero-denominator cases here) modelled as `none`. -/
noncomputable def jsDiv (x y : ℝ) : Option ℝ :=
  if y = 0 then none else some (x / y)

/-- `cosineSimilarity(vectorA, vectorB)`: `dotProd / (magA * magB)`,
unguarded. -/
noncomputable def cosineSimilarity (a b : List ℝ) : Option ℝ :=
  jsDiv (dotProduct a b) (magnitude a * magnitude b)

/-! ## HNSWIndex level draw

Embedding of the level computation in `HNSWIndex.addVector`:

```
const level = Math.floor(-Math.log(Math.random()) * (1 / Math.log(2)));
```

The index options (with `maxConnections` defaulting to 16) are passed in so
that the (in)dependence of the draw on the configured `M` can be stated; the
uniform draw `Math.random()` is made an explicit argument `u`. -/

structure HNSWOptions where
  maxConnections : Nat := 16
  efConstruction : Nat := 200
  deriving Repr, DecidableEq

/-- The layer level assigned to a freshly inserted node, for uniform draw
`u`.  The multiplier in the source is the hard-coded `1 / Math.log(2)`. -/
noncomputable def hnswAssignLevel (opts : HNSWOptions) (u : ℝ) : Int :=
  ⌊-Real.log u * (1 / Real.log 2)⌋

/-- Modelled from the spec: the level draw as the spec describes it,
`L = ⌊−ln(U)·levelMultiplier⌋` with `levelMultiplier = 1/ln(M)`, for
comparison against `hnswAssignLevel`. -/
noncomputable def hnswAssignLevelSpec (M : Nat) (u : ℝ) : Int :=
  ⌊-Real.log u * (1 / Real.log M)⌋

/-! ## Hybrid memory retrieval ranking

Embedding of the scoring, sorting and truncation stage of
`HybridPersonaMemoryManager.retrieveRelevantMemories`
(DEVTEAM-HANDOFF-Version2-evolution.md):

```
if (memoryTypes && Array.isArray(memoryTypes)) {
  filteredResults = filteredResults.filter(result =>
    memoryTypes.includes(result.metadata.memoryType));
}
if (maxAge) {
  const cutoffTime = Date.now() - maxAge;
  filteredResults = filteredResults.filter(result =>
    result.metadata.timestamp >= cutoffTime);
}
filteredResults.forEach(result => {
  let baseScore = result.similarity + (result.metadata.importance || 0.5) * 0.1;
  if (result.graphContext) {
    const depthPenalty = 0.05 * (result.graphContext.depth - 1);
    baseScore += 0.15 - depthPenalty;
  }
  result.finalScore = baseScore;
});
filteredResults.sort((a, b) => b.finalScore - a.finalScore);
filteredResults = filteredResults.slice(0, limit);
```

A search candidate carries the similarity computed by the store, the metadata
fields consulted above, and the optional graph-expansion context (its
`depth`). -/

structure HybridCandidate where
  id : String
  similarity : ℚ
  importance : Option ℚ
  memoryType : String
  timestamp : Int
  graphDepth : Option ℚ
  deriving Repr, DecidableEq

/-- JavaScript `x || d` applied to an optional numeric field: both `undefined`
and `0` are falsy and yield the default. -/
def jsOrDefault (x : Option ℚ) (d : ℚ) : ℚ :=
  match x with
  | none => d
  | some v => if v = 0 then d else v

/-- The `finalScore` written onto each candidate:
`similarity + (importance || 0.5) * 0.1`, plus the graph boost
`0.15 - 0.05 * (depth - 1)` when a graph context is present. -/
def hybridFinalScore (c : HybridCandidate) : ℚ :=
  let base := c.similarity + jsOrDefault c.importance (1/2) * (1/10)
  match c.graphDepth with
  | none => base
  | some depth => base + (3/20 - (1/20) * (depth - 1))

/-- The `memoryTypes` / `maxAge` post-filters. -/
def filterHybridCandidates (cands : List HybridCandidate)
    (memoryTypes : Option (List String)) (maxAge : Option Int) (now : Int) :
    List HybridCandidate :=
  let f1 :=
    match memoryTypes with
    | none => cands
    | some ts => cands.filter (fun c => ts.contains c.memoryType)
  match maxAge with
  | none => f1
  | some a => f1.filter (fun c => decide (now - a ≤ c.timestamp))

/-- One step of a sort that is descending in the attached score (the effect of
`sort((a, b) => b.finalScore - a.finalScore)`). -/
def insertScoredDesc (x : HybridCandidate × ℚ) :
    List (HybridCandidate × ℚ) → List (HybridCandidate × ℚ)
  | [] => [x]
  | y :: ys => if y.2 < x.2 then x :: y :: ys else y :: insertScoredDesc x ys

/-- Sort candidate/score pairs descending by score. -/
def sortScoredDesc (l : List (HybridCandidate × ℚ)) : List (HybridCandidate × ℚ) :=
  l.foldr insertScoredDesc []

/-- The retrieval tail: filter, attach `finalScore`, sort descending by it,
keep the first `limit`. -/
def retrieveRelevantMemories (cands : List HybridCandidate)
    (memoryTypes : Option (List String)) (maxAge : Option Int) (now : Int)
    (limit : Nat) : List (HybridCandidate × ℚ) :=
  (sortScoredDesc
    ((filterHybridCandidates cands memoryTypes maxAge now).map
      (fun c => (c, hybridFinalScore c)))).take limit

/-- Modelled from the spec: the final ranking score as the spec states it,
`similarity + 0.10 × importance + 0.05 × recencyFactor` where
`recencyFactor = exp(−λ·ageHours)`, for comparison against
`hybridFinalScore`. -/
noncomputable def specFinalScore (similarity importance lam ageHours : ℝ) : ℝ :=
  similarity + (1/10) * importance + (1/20) * Real.exp (-(lam * ageHours))

/-! ## MemoryEfficientVectorStore

Embedding of the buffer store:

```
constructor(maxMemoryMB = 1024, dimensions = 512) {
  this.maxMemoryBytes = maxMemoryMB * 1024 * 1024;
  this.dimensions = dimensions;
  this.vectorSize = dimensions * 4;
  this.maxVectors = Math.floor(this.maxMemoryBytes / this.vectorSize);
  this.buffer = new ArrayBuffer(this.maxMemoryBytes);
  this.vectors = new Float32Array(this.buffer);
  this.metadata = new Map();
  this.freeSlots = [];
  this.nextSlot = 0;
}
```

The `Float32Array` view is modelled as a total function from cell index to
value (all cells start at 0); the metadata `Map` as an association list from
id to `(slotIndex, timestamp)`; `freeSlots` in JavaScript array order, so
`push` appends and `pop` removes the last element. The derived constructor
fields `vectorSize` and `maxVectors` are functions of the stored fields (the
source computes them once and never mutates the inputs). -/

structure MemoryEfficientVectorStore where
  maxMemoryBytes : Nat
  dimensions : Nat
  vectors : Nat → ℚ
  metadata : List (String × Nat × Int)
  freeSlots : List Nat
  nextSlot : Nat

/-- `this.vectorSize = dimensions * 4` (4 bytes per float32). -/
def MemoryEfficientVectorStore.vectorSize (s : MemoryEfficientVectorStore) : Nat :=
  s.dimensions * 4

/-- `this.maxVectors = Math.floor(this.maxMemoryBytes / this.vectorSize)`. -/
def MemoryEfficientVectorStore.maxVectors (s : MemoryEfficientVectorStore) : Nat :=
  s.maxMemoryBytes / s.vectorSize

/-- The constructor, from `maxMemoryMB` and `dimensions`. -/
def mkMemoryEfficientVectorStore (maxMemoryMB dimensions : Nat) :
    MemoryEfficientVectorStore :=
  { maxMemoryBytes := maxMemoryMB * 1024 * 1024
    dimensions := dimensions
    vectors := fun _ => 0
    metadata := []
    freeSlots := []
    nextSlot := 0 }

/-- The copy loop `for (i < dimensions) vectors[startIndex + i] = vector[i]`
(at the call site `vector.length = dimensions`). -/
def writeSlot (buf : Nat → ℚ) (startIndex : Nat) (v : List ℚ) : Nat → ℚ :=
  fun j =>
    if startIndex ≤ j ∧ j < startIndex + v.length then v.getD (j - startIndex) 0
    else buf j

/-- `Map.set`: insert or overwrite the binding for `id`. -/
def mapSet (m : List (String × Nat × Int)) (id : String) (v : Nat × Int) :
    List (String × Nat × Int) :=
  match m with
  | [] => [(id, v)]
  | (k, w) :: rest =>
      if k == id then (id, v) :: rest else (k, w) :: mapSet rest id v

/-- `addVector(vector, id, metadata)`.  A `throw` is modelled as an `error`
result paired with the untouched store. -/
def MemoryEfficientVectorStore.addVector (s : MemoryEfficientVectorStore)
    (vector : List ℚ) (id : String) (now : Int) :
    Except String Nat × MemoryEfficientVectorStore :=
  if vector.length ≠ s.dimensions then
    (.error ("Vector must have " ++ toString s.dimensions ++ " dimensions"), s)
  else
    match s.freeSlots.getLast? with
    | some slotIndex =>
        (.ok slotIndex,
          { s with
            freeSlots := s.freeSlots.dropLast
            vectors := writeSlot s.vectors (slotIndex * s.dimensions) vector
            metadata := mapSet s.metadata id (slotIndex, now) })
    | none =>
        if s.nextSlot < s.maxVectors then
          (.ok s.nextSlot,
            { s with
              nextSlot := s.nextSlot + 1
              vectors := writeSlot s.vectors (s.nextSlot * s.dimensions) vector
              metadata := mapSet s.metadata id (s.nextSlot, now) })
        else
          (.error "Vector store is full - consider increasing memory allocation", s)

/-- The record returned by `getMemoryStats` (the integer-valued fields are
`Int`-valued because the source computes them by plain number arithmetic). -/
structure MemoryStats where
  totalMemory : Nat
  usedMemory : Int
  freeMemory : Int
  usedSlots : Int
  totalSlots : Nat
  memoryUtilization : ℚ
  deriving Repr, DecidableEq

/-- `getMemoryStats()`. -/
def MemoryEfficientVectorStore.getMemoryStats (s : MemoryEfficientVectorStore) :
    MemoryStats :=
  let usedSlots : Int := (s.nextSlot : Int) - (s.freeSlots.length : Int)
  let usedMemory : Int := usedSlots * (s.vectorSize : Int)
  { totalMemory := s.maxMemoryBytes
    usedMemory := usedMemory
    freeMemory := (s.maxMemoryBytes : Int) - usedMemory
    usedSlots := usedSlots
    totalSlots := s.maxVectors
    memoryUtilization := ((usedMemory : ℚ) / (s.maxMemoryBytes : ℚ)) * 100 }

/-- Run a sequence of `addVector` calls; a call that throws leaves the store
unchanged, so this is the state after the successful ones. -/
def applyAddVectors (s : MemoryEfficientVectorStore)
    (ops : List (List ℚ × String × Int)) : MemoryEfficientVectorStore :=
  ops.foldl (fun st op => (st.addVector op.1 op.2.1 op.2.2).2) s

/-- The bookkeeping invariant maintained by `addVector`. -/
def MemoryEfficientVectorStore.WellFormed (s : MemoryEfficientVectorStore) : Prop :=
  s.freeSlots.length ≤ s.nextSlot ∧ s.nextSlot ≤ s.maxVectors

/-! ## DatabaseRepository

Embedding of the SQLite repository operations cited by the claims.  Tables
are lists of rows; a prepared `stmt.get` is a first-match search in table
order. -/

structure PersonaRow where
  id : String
  name : String
  isActive : Bool
  updatedAt : Int
  deriving Repr, DecidableEq

structure VectorMetadataRow where
  id : String
  personaId : Option String
  deriving Repr, DecidableEq

structure UserRow where
  id : String
  email : String
  isActive : Bool
  deriving Repr, DecidableEq

structure ApiKeyRow where
  id : String
  userId : String
  keyHash : String
  isActive : Bool
  expiresAt : Option Int
  deriving Repr, DecidableEq

structure Database where
  users : List UserRow
  apiKeys : List ApiKeyRow
  personas : List PersonaRow
  vectorMetadata : List VectorMetadataRow
  deriving Repr, DecidableEq

/-- `deletePersona(id)`:
`UPDATE personas SET is_active = 0, updated_at = ? WHERE id = ?` — the row is
soft-deleted in place; no other table is touched. -/
def deletePersona (db : Database) (pid : String) (now : Int) : Database :=
  { db with
    personas := db.personas.map (fun p =>
      if p.id == pid then { p with isActive := false, updatedAt := now } else p) }

/-- The `WHERE` clause of `getApiKeyByHash`:
`ak.key_hash = ? AND ak.is_active = 1 AND u.is_active = 1 AND
 (ak.expires_at IS NULL OR ak.expires_at > ?)`. -/
def apiKeyRowMatches (keyHash : String) (now : Int) (ak : ApiKeyRow) (u : UserRow) :
    Bool :=
  ak.keyHash == keyHash && ak.isActive && u.isActive &&
    (match ak.expiresAt with
     | none => true
     | some t => decide (now < t))

/-- `getApiKeyByHash(keyHash)`: join `api_keys` with `users` on
`ak.user_id = u.id`, apply the `WHERE` clause with the current time, return
the first matching joined row (if any). -/
def getApiKeyByHash (db : Database) (keyHash : String) (now : Int) :
    Option (ApiKeyRow × UserRow) :=
  (db.apiKeys.flatMap (fun ak =>
    (db.users.filter (fun u => u.id == ak.userId)).map (fun u => (ak, u)))).find?
    (fun r => apiKeyRowMatches keyHash now r.1 r.2)

/-! ## LocalTransformersProvider

Embedding of `hashString` and `generateDeterministicEmbedding`.  JavaScript
32-bit integer coercion (`| 0`-style, produced here by `<<` and `& `) is
`toInt32`; character codes are code points (`charCodeAt` agrees on the basic
plane); `text.toLowerCase().split(/\s+/)` splits on whitespace runs, with the
empty-string fragments JavaScript produces at a whitespace start/end of the
input.  The ambient source of randomness (`Math.random`) is passed in as
`entropy` so that (non-)use of it is visible in the definition; the source
never consults it. -/

/-- JavaScript `ToInt32`. -/
def toInt32 (n : Int) : Int :=
  (n + 2 ^ 31) % 2 ^ 32 - 2 ^ 31

/-- One iteration of `hashString`:
`hash = ((hash << 5) - hash) + char; hash = hash & hash`. -/
def hashStringStep (h : Int) (code : Nat) : Int :=
  toInt32 (toInt32 (h * 32) - h + code)

/-- `hashString(str)`: fold the step over the characters, then `Math.abs`. -/
def hashString (s : String) : Nat :=
  (s.data.foldl (fun h c => hashStringStep h c.toNat) 0).natAbs

/-- The seed recurrence `seed = (seed * 9301 + 49297) % 233280`. -/
def nextSeed (seed : Nat) : Nat :=
  (seed * 9301 + 49297) % 233280

/-- The initialisation loop: `dims` cells, each
`(seed / 233280 - 0.5) * 0.1` for the freshly advanced seed. -/
noncomputable def seedInitList (dims seed : Nat) : List ℝ :=
  match dims with
  | 0 => []
  | n + 1 =>
      let s := nextSeed seed
      (((s : ℝ) / 233280 - 1/2) * (1/10)) :: seedInitList n s

/-- `embedding[i] += x` (writes through `List.set`; every index used by the
source is `< dims = length`). -/
def updAdd (l : List ℝ) (i : Nat) (x : ℝ) : List ℝ :=
  l.set i (l.getD i 0 + x)

/-- `text.split(/\s+/)` on the already-lowercased text. -/
def jsSplitWhitespace (s : String) : List String :=
  if s = "" then [""]
  else
    let core := (s.split Char.isWhitespace).filter (fun w => w ≠ "")
    let lead := if (s.data.head?.map Char.isWhitespace).getD false then [""] else []
    let trail := if (s.data.getLast?.map Char.isWhitespace).getD false then [""] else []
    lead ++ core ++ trail

/-- The model table `modelConfigs` (all entries carry 1536 dimensions). -/
def localModelConfigs : List (String × Nat) :=
  [("all-MiniLM-L6-v2", 1536),
   ("all-mpnet-base-v2", 1536),
   ("sentence-transformers/paraphrase-MiniLM-L6-v2", 1536),
   ("openai-compatible-1536", 1536)]

/-- `modelConfigs[model] || modelConfigs['all-MiniLM-L6-v2']`, dimensions
field. -/
def localModelDims (model : String) : Nat :=
  ((localModelConfigs.find? (fun p => p.1 == model)).map (fun p => p.2)).getD 1536

/-- The word-feature inner loop for one `(word, wordIndex)` pair. -/
noncomputable def applyWordFeature (dims : Nat) (wordIndex : Nat) (word : String)
    (emb : List ℝ) : List ℝ :=
  (List.range (min word.length dims)).foldl
    (fun e i =>
      let idx := (hashString word + i * wordIndex) % dims
      let code := ((word.data.getD (i % word.length) 'a').toNat : ℝ)
      updAdd e idx (code / 10000))
    emb

/-- `words.forEach((word, wordIndex) => ...)`. -/
noncomputable def applyWordFeatures (dims : Nat) (words : List String)
    (emb : List ℝ) : List ℝ :=
  words.enum.foldl (fun e p => applyWordFeature dims p.1 p.2 e) emb

/-- The character-bigram loop: each adjacent pair bumps the hashed cell by
`0.01`. -/
noncomputable def applyBigrams (dims : Nat) (chars : List Char) (emb : List ℝ) :
    List ℝ :=
  match chars with
  | c1 :: c2 :: rest =>
      applyBigrams dims (c2 :: rest)
        (updAdd emb (hashString (String.mk [c1, c2]) % dims) (1/100))
  | _ => emb

/-- The positional loop: each cell `i` gains
`sin(pos·textLen/100)·0.05 + cos(pos·wordCount/10)·0.05` for
`pos = i / dims`. -/
noncomputable def applyPositional (dims textLen wordCount : Nat) (emb : List ℝ) :
    List ℝ :=
  (List.range dims).foldl
    (fun e (i : Nat) =>
      let pos : ℝ := (i : ℝ) / dims
      updAdd (updAdd e i (Real.sin (pos * textLen / 100) * (1/20)))
        i (Real.cos (pos * wordCount / 10) * (1/20)))
    emb

/-- `generateDeterministicEmbedding(text, model)`, with the runtime's
randomness source threaded in as `entropy` (the body never reads it). -/
noncomputable def generateDeterministicEmbedding (entropy : Nat → ℝ)
    (text model : String) : List ℝ :=
  let dims := localModelDims model
  let words := jsSplitWhitespace text.toLower
  let chars := text.toLower.data
  let seed := hashString text
  applyPositional dims text.length words.length
    (applyBigrams dims chars
      (applyWordFeatures dims words (seedInitList dims seed)))

/-! # Theorems -/

/-! ## Shared helper lemmas -/

theorem filter_comp {α} (l : List α) (p q : α → Bool) :
    (l.filter p).filter q = l.filter (fun a => p a && q a) := by
  induction l with
  | nil => rfl
  | cons x xs ih =>
      by_cases hp : p x = true
      · by_cases hq : q x = true
        · simp [List.filter_cons, hp, hq, ih]
        · simp [List.filter_cons, hp, hq, ih]
      · simp [List.filter_cons, hp, ih]

/-! ## Claim C1 — decay cleanup and the importance retention tier

The cited code deletes purely by age: `deleteWhere` filters on
`personaId` and `timestamp < now - memoryDecayTime` and never reads
`importance`.  The claimed "perpetual tier" (importance ≥ 0.7 retained
regardless of age) is not implemented: the counterexample below deletes a
memory of importance 0.9. -/

/-- Claim C1 counterexample: a memory of importance `0.9` (at or above the
claimed retention threshold `0.7`) whose age (2000 ms) exceeds its persona's
`memoryDecayTime` (1000 ms) is deleted by `cleanupExpiredMemories`, so the
claimed retention of high-importance memories is false on the code. -/
theorem cleanupExpiredMemories_deletes_high_importance :
    cleanupExpiredMemories 2000 [{ id := "p", memoryDecayTime := 1000 }]
        [{ personaId := "p", timestamp := 0, importance := 9/10 }] = []
      ∧ (7/10 : ℚ) ≤ 9/10 := by
  constructor
  · rfl
  · norm_num

/-- Claim C1 (amended): `cleanupExpiredMemories` deletes exactly the memories
whose age exceeds their persona's `memoryDecayTime`, regardless of
importance — there is no importance-based retention.  The surviving list is
the age-based filter of the input. -/
theorem cleanupExpiredMemories_eq_age_filter (now : Int) (ps : List Persona)
    (mems : List MemoryRecord) :
    cleanupExpiredMemories now ps mems
      = mems.filter (fun m => !(memoryExpired now ps m)) := by
  induction ps generalizing mems with
  | nil => simp [cleanupExpiredMemories, memoryExpired]
  | cons p rest ih =>
      rw [cleanupExpiredMemories, ih, deleteWhere, filter_comp]
      apply List.filter_congr
      intro m _
      simp [memoryExpired, List.any_cons, Bool.not_or]

/-! ## Claim C2 — cosine similarity at zero magnitude

`cosineSimilarity` performs the division `dotProd / (magA * magB)` with no
zero-magnitude guard, so a zero magnitude yields a non-finite result
(`none` in this model), not the claimed `0`. -/

/-- Claim C2 counterexample: for `a = [0]`, `b = [1]` the magnitude of `a`
is `0`, and `cosineSimilarity` does not return `0` — the unguarded division
produces a non-finite value (`none`). -/
theorem cosineSimilarity_claim_false :
    magnitude [(0 : ℝ)] = 0 ∧ cosineSimilarity [(0 : ℝ)] [(1 : ℝ)] ≠ some 0 := by
  have hm : magnitude [(0 : ℝ)] = 0 := by
    simp [magnitude, sumSquares]
  refine ⟨hm, ?_⟩
  simp [cosineSimilarity, jsDiv, hm]

/-- Claim C2 (amended): whenever either magnitude is `0`,
`cosineSimilarity` returns the non-finite result of an unguarded division
by zero (`none`), never a numeric `0`. -/
theorem cosineSimilarity_zero_magnitude (a b : List ℝ)
    (h : magnitude a = 0 ∨ magnitude b = 0) :
    cosineSimilarity a b = none := by
  have hz : magnitude a * magnitude b = 0 := by
    rcases h with h | h <;> simp [h]
  simp [cosineSimilarity, jsDiv, hz]

/-- Witness for `cosineSimilarity_zero_magnitude` at `a = [0]`, `b = [1]`. -/
theorem cosineSimilarity_zero_magnitude_witness :
    cosineSimilarity [(0 : ℝ)] [(1 : ℝ)] = none :=
  cosineSimilarity_zero_magnitude [(0 : ℝ)] [(1 : ℝ)]
    (Or.inl (by simp [magnitude, sumSquares]))

/-! ## Claim C4 — the HNSW level multiplier

The source hard-codes `1 / Math.log(2)` as the level multiplier; the claimed
`1 / ln(M)` (with `M = maxConnections = 16` by default) disagrees with it
whenever `M ≠ 2`. -/

/-- Claim C4 counterexample: with the default `M = 16` and the uniform draw
`U = exp(−1)`, the code assigns level `⌊1/ln 2⌋ = 1` while the claimed
formula gives `⌊1/ln 16⌋ = 0`. -/
theorem hnswAssignLevel_ne_spec :
    hnswAssignLevel {} (Real.exp (-1)) ≠ hnswAssignLevelSpec 16 (Real.exp (-1)) := by
  have hlog : -Real.log (Real.exp (-1)) = 1 := by
    rw [Real.log_exp]; norm_num
  have h2pos : (0 : ℝ) < Real.log 2 := Real.log_pos (by norm_num)
  have hL : hnswAssignLevel {} (Real.exp (-1)) = 1 := by
    unfold hnswAssignLevel
    rw [hlog, one_mul, Int.floor_eq_iff]
    constructor
    · rw [Int.cast_one, le_div_iff₀ h2pos, one_mul]
      have := Real.log_two_lt_d9
      linarith
    · rw [div_lt_iff₀ h2pos]
      have := Real.log_two_gt_d9
      push_cast
      linarith
  have hR : hnswAssignLevelSpec 16 (Real.exp (-1)) = 0 := by
    unfold hnswAssignLevelSpec
    rw [hlog, one_mul]
    have h16 : Real.log ((16 : ℕ) : ℝ) = 4 * Real.log 2 := by
      rw [show ((16 : ℕ) : ℝ) = 2 ^ 4 by norm_num, Real.log_pow]
      norm_num
    rw [h16, Int.floor_eq_iff]
    constructor
    · push_cast
      positivity
    · rw [div_lt_iff₀ (by positivity)]
      have := Real.log_two_gt_d9
      push_cast
      linarith
  rw [hL, hR]
  decide

/-- Claim C4 (amended): the assigned level is `⌊−ln(U)·(1/ln 2)⌋` for every
configuration — the multiplier is the hard-coded `1/ln 2` and does not
depend on the configured `maxConnections` — and for uniform `U ∈ (0, 1]` it
is a nonnegative integer. -/
theorem hnswAssignLevel_hardcoded_log2 (opts opts' : HNSWOptions) (u : ℝ)
    (h0 : 0 < u) (h1 : u ≤ 1) :
    hnswAssignLevel opts u = hnswAssignLevel opts' u
    ∧ hnswAssignLevel opts u = ⌊-Real.log u * (1 / Real.log 2)⌋
    ∧ 0 ≤ hnswAssignLevel opts u := by
  refine ⟨rfl, rfl, ?_⟩
  have hu : Real.log u ≤ 0 := Real.log_nonpos (le_of_lt h0) h1
  have h2 : (0 : ℝ) ≤ Real.log 2 := Real.log_nonneg (by norm_num)
  have : (0 : ℝ) ≤ -Real.log u * (1 / Real.log 2) := by
    apply mul_nonneg (by linarith)
    positivity
  exact Int.floor_nonneg.mpr this

/-- Witness for `hnswAssignLevel_hardcoded_log2` at `u = 1` with the default
options against `maxConnections = 32`. -/
theorem hnswAssignLevel_hardcoded_log2_witness :
    hnswAssignLevel {} 1 = hnswAssignLevel { maxConnections := 32 } 1
    ∧ hnswAssignLevel {} 1 = ⌊-Real.log 1 * (1 / Real.log 2)⌋
    ∧ 0 ≤ hnswAssignLevel {} 1 :=
  hnswAssignLevel_hardcoded_log2 {} { maxConnections := 32 } 1 (by norm_num)
    (by norm_num)

/-! ## Claim C3 — the final retrieval ranking score

The scoring loop of the hybrid retrieval computes
`similarity + (importance || 0.5) * 0.1` plus a graph boost; there is no
`0.05 × recencyFactor` term, so the claimed formula disagrees with the code
already for a brand-new memory (`ageHours = 0`, `recencyFactor = 1`). -/

theorem insertScoredDesc_mem (x y : HybridCandidate × ℚ)
    (l : List (HybridCandidate × ℚ)) :
    y ∈ insertScoredDesc x l ↔ y = x ∨ y ∈ l := by
  induction l with
  | nil => simp [insertScoredDesc]
  | cons z zs ih =>
      by_cases h : z.2 < x.2
      · simp [insertScoredDesc, h]
      · simp only [insertScoredDesc, if_neg h, List.mem_cons, ih]
        tauto

theorem insertScoredDesc_pairwise (x : HybridCandidate × ℚ)
    (l : List (HybridCandidate × ℚ))
    (hl : l.Pairwise (fun a b => b.2 ≤ a.2)) :
    (insertScoredDesc x l).Pairwise (fun a b => b.2 ≤ a.2) := by
  induction l with
  | nil => simp [insertScoredDesc]
  | cons z zs ih =>
      rw [List.pairwise_cons] at hl
      by_cases h : z.2 < x.2
      · rw [insertScoredDesc, if_pos h, List.pairwise_cons]
        constructor
        · intro w hw
          rcases List.mem_cons.mp hw with hw | hw
          · exact hw ▸ le_of_lt h
          · exact le_trans (hl.1 w hw) (le_of_lt h)
        · rw [List.pairwise_cons]
          exact hl
      · rw [insertScoredDesc, if_neg h, List.pairwise_cons]
        constructor
        · intro w hw
          rcases (insertScoredDesc_mem x w zs).mp hw with hw | hw
          · exact hw ▸ not_lt.mp h
          · exact hl.1 w hw
        · exact ih hl.2

theorem insertScoredDesc_length (x : HybridCandidate × ℚ)
    (l : List (HybridCandidate × ℚ)) :
    (insertScoredDesc x l).length = l.length + 1 := by
  induction l with
  | nil => rfl
  | cons z zs ih =>
      by_cases h : z.2 < x.2
      · simp [insertScoredDesc, h]
      · simp [insertScoredDesc, h, ih]

theorem sortScoredDesc_mem (y : HybridCandidate × ℚ)
    (l : List (HybridCandidate × ℚ)) :
    y ∈ sortScoredDesc l ↔ y ∈ l := by
  induction l with
  | nil => simp [sortScoredDesc]
  | cons z zs ih =>
      rw [sortScoredDesc, List.foldr_cons]
      rw [insertScoredDesc_mem]
      rw [show zs.foldr insertScoredDesc [] = sortScoredDesc zs from rfl, ih]
      simp [eq_comm]

theorem sortScoredDesc_pairwise (l : List (HybridCandidate × ℚ)) :
    (sortScoredDesc l).Pairwise (fun a b => b.2 ≤ a.2) := by
  induction l with
  | nil => simp [sortScoredDesc]
  | cons z zs ih =>
      rw [sortScoredDesc, List.foldr_cons]
      exact insertScoredDesc_pairwise z _ ih

theorem filterHybridCandidates_subset (cands : List HybridCandidate)
    (memoryTypes : Option (List String)) (maxAge : Option Int) (now : Int)
    (c : HybridCandidate)
    (hc : c ∈ filterHybridCandidates cands memoryTypes maxAge now) :
    c ∈ cands := by
  unfold filterHybridCandidates at hc
  rcases memoryTypes with _ | ts <;> rcases maxAge with _ | a <;>
    simp only [List.mem_filter] at hc <;> tauto

/-- Claim C3 counterexample: for a candidate with `similarity = 0.5` and
`importance = 0.8` retrieved at age `ageHours = 0` (so
`recencyFactor = exp(−λ·0) = 1` for the claimed 7-day half-life
`λ = ln 2 / 168`), the code's score is `0.58` while the claimed
`similarity + 0.10·importance + 0.05·recencyFactor` is `0.63`. -/
theorem hybridFinalScore_no_recency_term :
    ((hybridFinalScore
        { id := "m", similarity := 1/2, importance := some (4/5),
          memoryType := "conversation", timestamp := 0, graphDepth := none } : ℚ) : ℝ)
      ≠ specFinalScore (1/2) (4/5) (Real.log 2 / 168) 0 := by
  have h1 : hybridFinalScore
      { id := "m", similarity := 1/2, importance := some (4/5),
        memoryType := "conversation", timestamp := 0, graphDepth := none }
      = 29/50 := by
    norm_num [hybridFinalScore, jsOrDefault]
  have h2 : specFinalScore (1/2) (4/5) (Real.log 2 / 168) 0 = 63/100 := by
    unfold specFinalScore
    rw [mul_zero, neg_zero, Real.exp_zero]
    norm_num
  rw [h1, h2]
  norm_num

/-- Claim C3 (amended): every retrieved result carries the final score
`similarity + (importance, defaulted to 0.5 when absent or 0) × 0.1`, plus
`0.15 − 0.05×(depth−1)` when the result was graph-expanded — there is no
recency term — and the result list is sorted descending by that score and
truncated to the requested limit. -/
theorem retrieveRelevantMemories_ranking (cands : List HybridCandidate)
    (memoryTypes : Option (List String)) (maxAge : Option Int) (now : Int)
    (limit : Nat) :
    (∀ p ∈ retrieveRelevantMemories cands memoryTypes maxAge now limit,
        p.2 = hybridFinalScore p.1 ∧ p.1 ∈ cands)
    ∧ (retrieveRelevantMemories cands memoryTypes maxAge now limit).Pairwise
        (fun a b => b.2 ≤ a.2)
    ∧ (retrieveRelevantMemories cands memoryTypes maxAge now limit).length ≤ limit := by
  refine ⟨?_, ?_, ?_⟩
  · intro p hp
    have hp' := List.mem_of_mem_take hp
    rw [sortScoredDesc_mem, List.mem_map] at hp'
    obtain ⟨c, hc, hcp⟩ := hp'
    subst hcp
    exact ⟨rfl, filterHybridCandidates_subset _ _ _ _ c hc⟩
  · exact (sortScoredDesc_pairwise _).sublist (List.take_sublist _ _)
  · exact List.length_take_le _ _

/-- Witness for `retrieveRelevantMemories_ranking` on a one-element candidate
list. -/
theorem retrieveRelevantMemories_ranking_witness :
    ((⟨{ id := "m", similarity := 1/2, importance := some (4/5),
          memoryType := "conversation", timestamp := 0, graphDepth := none },
        29/50⟩ : HybridCandidate × ℚ).2
      = hybridFinalScore
          (⟨{ id := "m", similarity := 1/2, importance := some (4/5),
              memoryType := "conversation", timestamp := 0, graphDepth := none },
            29/50⟩ : HybridCandidate × ℚ).1)
    ∧ (⟨{ id := "m", similarity := 1/2, importance := some (4/5),
          memoryType := "conversation", timestamp := 0, graphDepth := none },
        29/50⟩ : HybridCandidate × ℚ).1
        ∈ [{ id := "m", similarity := 1/2, importance := some (4/5),
             memoryType := "conversation", timestamp := 0, graphDepth := none }] :=
  (retrieveRelevantMemories_ranking
      [{ id := "m", similarity := 1/2, importance := some (4/5),
         memoryType := "conversation", timestamp := 0, graphDepth := none }]
      none none 0 5).1
    ⟨{ id := "m", similarity := 1/2, importance := some (4/5),
       memoryType := "conversation", timestamp := 0, graphDepth := none },
      29/50⟩
    (by norm_num [retrieveRelevantMemories, filterHybridCandidates,
        sortScoredDesc, insertScoredDesc, hybridFinalScore, jsOrDefault])

/-! ## Claim C5 — dimension mismatch is rejected atomically

`addVector` throws before touching any state when the vector length differs
from the configured dimensionality. -/

/-- Claim C5: inserting a vector whose length differs from the store's
dimensionality fails with the dimension-mismatch error and leaves the
buffer, the id→slot metadata map, the free-slot list and the never-used slot
counter unchanged. -/
theorem addVector_dimension_mismatch (s : MemoryEfficientVectorStore)
    (v : List ℚ) (id : String) (now : Int) (h : v.length ≠ s.dimensions) :
    (s.addVector v id now).1
      = .error ("Vector must have " ++ toString s.dimensions ++ " dimensions")
    ∧ (s.addVector v id now).2.vectors = s.vectors
    ∧ (s.addVector v id now).2.metadata = s.metadata
    ∧ (s.addVector v id now).2.freeSlots = s.freeSlots
    ∧ (s.addVector v id now).2.nextSlot = s.nextSlot := by
  unfold MemoryEfficientVectorStore.addVector
  rw [if_pos h]
  exact ⟨rfl, rfl, rfl, rfl, rfl⟩

/-- Witness for `addVector_dimension_mismatch`: a 2-entry vector against a
3-dimensional store. -/
theorem addVector_dimension_mismatch_witness :
    ((mkMemoryEfficientVectorStore 1 3).addVector [1, 2] "a" 0).1
      = .error ("Vector must have "
          ++ toString (mkMemoryEfficientVectorStore 1 3).dimensions
          ++ " dimensions")
    ∧ ((mkMemoryEfficientVectorStore 1 3).addVector [1, 2] "a" 0).2.metadata = []
    ∧ ((mkMemoryEfficientVectorStore 1 3).addVector [1, 2] "a" 0).2.freeSlots = []
    ∧ ((mkMemoryEfficientVectorStore 1 3).addVector [1, 2] "a" 0).2.nextSlot = 0 := by
  have h := addVector_dimension_mismatch (mkMemoryEfficientVectorStore 1 3)
    [1, 2] "a" 0 (by decide)
  exact ⟨h.1, h.2.2.1.trans rfl, h.2.2.2.1.trans rfl, h.2.2.2.2.trans rfl⟩

/-! ## Claim C7 — slot-allocation policy

On a correctly dimensioned insert the slot comes off the back of the
free-slot array (`freeSlots.pop()`, i.e. the most recently pushed entry);
otherwise the never-used counter supplies the slot and advances; when the
free list is empty and the counter has reached
`⌊maxMemoryBytes / (dimensions × 4)⌋` the insert throws the buffer-full
error with the store untouched. -/

/-- Claim C7: the slot-allocation policy of `addVector` for a vector of the
configured dimensionality. -/
theorem addVector_slot_allocation (s : MemoryEfficientVectorStore)
    (v : List ℚ) (id : String) (now : Int) (h : v.length = s.dimensions) :
    (∀ init last, s.freeSlots = init ++ [last] →
        (s.addVector v id now).1 = .ok last
        ∧ (s.addVector v id now).2.freeSlots = init
        ∧ (s.addVector v id now).2.nextSlot = s.nextSlot)
    ∧ (s.freeSlots = [] → s.nextSlot < s.maxMemoryBytes / (s.dimensions * 4) →
        (s.addVector v id now).1 = .ok s.nextSlot
        ∧ (s.addVector v id now).2.nextSlot = s.nextSlot + 1
        ∧ (s.addVector v id now).2.freeSlots = [])
    ∧ (s.freeSlots = [] → s.maxMemoryBytes / (s.dimensions * 4) ≤ s.nextSlot →
        s.addVector v id now
          = (.error "Vector store is full - consider increasing memory allocation",
              s)) := by
  have hne : ¬v.length ≠ s.dimensions := by simp [h]
  refine ⟨?_, ?_, ?_⟩
  · intro init last hfs
    unfold MemoryEfficientVectorStore.addVector
    rw [if_neg hne, hfs, List.getLast?_concat]
    exact ⟨rfl, by simp, rfl⟩
  · intro hfs hlt
    unfold MemoryEfficientVectorStore.addVector
    rw [if_neg hne, hfs]
    have hlt' : s.nextSlot < s.maxVectors := hlt
    simp [hlt']
  · intro hfs hge
    unfold MemoryEfficientVectorStore.addVector
    rw [if_neg hne, hfs]
    have hge' : ¬s.nextSlot < s.maxVectors := not_lt.mpr hge
    simp [hge']

/-- Witness for `addVector_slot_allocation`: a store with free slots `[2, 5]`
hands out slot `5` (the most recently pushed) and keeps `nextSlot` at 6. -/
theorem addVector_slot_allocation_witness :
    (({ maxMemoryBytes := 1048576, dimensions := 1, vectors := fun _ => 0,
        metadata := [], freeSlots := [2, 5], nextSlot := 6 } :
          MemoryEfficientVectorStore).addVector [1] "x" 0).1 = .ok 5
    ∧ (({ maxMemoryBytes := 1048576, dimensions := 1, vectors := fun _ => 0,
          metadata := [], freeSlots := [2, 5], nextSlot := 6 } :
            MemoryEfficientVectorStore).addVector [1] "x" 0).2.freeSlots = [2]
    ∧ (({ maxMemoryBytes := 1048576, dimensions := 1, vectors := fun _ => 0,
          metadata := [], freeSlots := [2, 5], nextSlot := 6 } :
            MemoryEfficientVectorStore).addVector [1] "x" 0).2.nextSlot = 6 :=
  (addVector_slot_allocation
      { maxMemoryBytes := 1048576, dimensions := 1, vectors := fun _ => 0,
        metadata := [], freeSlots := [2, 5], nextSlot := 6 }
      [1] "x" 0 rfl).1 [2] 5 rfl

/-! ## Claim C10 — memory-statistics accounting

`getMemoryStats` reports `usedSlots = nextSlot − freeSlots.length`,
`usedMemory = usedSlots × dimensions × 4`, and memory that sums to the
fixed total; along any sequence of inserts the counters stay within
`[0, totalSlots]`. -/

theorem addVector_preserves_config (s : MemoryEfficientVectorStore)
    (v : List ℚ) (id : String) (now : Int) :
    (s.addVector v id now).2.maxMemoryBytes = s.maxMemoryBytes
    ∧ (s.addVector v id now).2.dimensions = s.dimensions := by
  unfold MemoryEfficientVectorStore.addVector
  by_cases h : v.length ≠ s.dimensions
  · rw [if_pos h]; exact ⟨rfl, rfl⟩
  · rw [if_neg h]
    cases hfs : s.freeSlots.getLast? with
    | some slot => exact ⟨rfl, rfl⟩
    | none =>
        by_cases hlt : s.nextSlot < s.maxVectors
        · rw [if_pos hlt]; exact ⟨rfl, rfl⟩
        · rw [if_neg hlt]; exact ⟨rfl, rfl⟩

theorem addVector_wellFormed (s : MemoryEfficientVectorStore)
    (v : List ℚ) (id : String) (now : Int) (hwf : s.WellFormed) :
    (s.addVector v id now).2.WellFormed := by
  obtain ⟨h1, h2⟩ := hwf
  unfold MemoryEfficientVectorStore.addVector
  by_cases h : v.length ≠ s.dimensions
  · rw [if_pos h]; exact ⟨h1, h2⟩
  · rw [if_neg h]
    cases hfs : s.freeSlots.getLast? with
    | some slot =>
        refine ⟨?_, h2⟩
        have : s.freeSlots.dropLast.length = s.freeSlots.length - 1 :=
          List.length_dropLast _
        simp only [MemoryEfficientVectorStore.WellFormed] at *
        omega
    | none =>
        by_cases hlt : s.nextSlot < s.maxVectors
        · rw [if_pos hlt]
          constructor
          · show s.freeSlots.length ≤ s.nextSlot + 1
            omega
          · show s.nextSlot + 1 ≤ s.maxMemoryBytes / (s.dimensions * 4)
            exact hlt
        · rw [if_neg hlt]; exact ⟨h1, h2⟩

theorem applyAddVectors_invariant (ops : List (List ℚ × String × Int))
    (s : MemoryEfficientVectorStore) (hwf : s.WellFormed) :
    (applyAddVectors s ops).WellFormed
    ∧ (applyAddVectors s ops).maxMemoryBytes = s.maxMemoryBytes
    ∧ (applyAddVectors s ops).dimensions = s.dimensions := by
  induction ops generalizing s with
  | nil => exact ⟨hwf, rfl, rfl⟩
  | cons op rest ih =>
      have hstep := addVector_preserves_config s op.1 op.2.1 op.2.2
      have hwf' := addVector_wellFormed s op.1 op.2.1 op.2.2 hwf
      have := ih (s.addVector op.1 op.2.1 op.2.2).2 hwf'
      rw [applyAddVectors, List.foldl_cons]
      exact ⟨this.1, this.2.1.trans hstep.1, this.2.2.trans hstep.2⟩

/-- Claim C10: after any sequence of `addVector` calls on a fresh store (the
failing calls leave the store unchanged, so this is the state after the
successful ones), `getMemoryStats` satisfies the accounting identities:
`usedSlots = nextSlot − freeSlots.length`,
`usedMemory = usedSlots × dimensions × 4`,
`usedMemory + freeMemory = totalMemory`, and `0 ≤ usedSlots ≤ totalSlots`. -/
theorem getMemoryStats_accounting (maxMemoryMB dims : Nat)
    (ops : List (List ℚ × String × Int)) :
    ((applyAddVectors (mkMemoryEfficientVectorStore maxMemoryMB dims)
        ops).getMemoryStats).usedSlots
      = ((applyAddVectors (mkMemoryEfficientVectorStore maxMemoryMB dims)
          ops).nextSlot : Int)
        - ((applyAddVectors (mkMemoryEfficientVectorStore maxMemoryMB dims)
            ops).freeSlots.length : Int)
    ∧ ((applyAddVectors (mkMemoryEfficientVectorStore maxMemoryMB dims)
        ops).getMemoryStats).usedMemory
      = ((applyAddVectors (mkMemoryEfficientVectorStore maxMemoryMB dims)
          ops).getMemoryStats).usedSlots * ((dims : Int) * 4)
    ∧ ((applyAddVectors (mkMemoryEfficientVectorStore maxMemoryMB dims)
        ops).getMemoryStats).usedMemory
        + ((applyAddVectors (mkMemoryEfficientVectorStore maxMemoryMB dims)
            ops).getMemoryStats).freeMemory
      = (((applyAddVectors (mkMemoryEfficientVectorStore maxMemoryMB dims)
          ops).getMemoryStats).totalMemory : Int)
    ∧ 0 ≤ ((applyAddVectors (mkMemoryEfficientVectorStore maxMemoryMB dims)
        ops).getMemoryStats).usedSlots
    ∧ ((applyAddVectors (mkMemoryEfficientVectorStore maxMemoryMB dims)
        ops).getMemoryStats).usedSlots
      ≤ (((applyAddVectors (mkMemoryEfficientVectorStore maxMemoryMB dims)
          ops).getMemoryStats).totalSlots : Int) := by
  obtain ⟨⟨hfree, hnext⟩, hmem, hdims⟩ :=
    applyAddVectors_invariant ops (mkMemoryEfficientVectorStore maxMemoryMB dims)
      ⟨Nat.le_refl 0, Nat.zero_le _⟩
  set s := applyAddVectors (mkMemoryEfficientVectorStore maxMemoryMB dims) ops
  refine ⟨rfl, ?_, ?_, ?_, ?_⟩
  · show ((s.nextSlot : Int) - (s.freeSlots.length : Int)) * (s.vectorSize : Int)
      = ((s.nextSlot : Int) - (s.freeSlots.length : Int)) * ((dims : Int) * 4)
    have : s.vectorSize = dims * 4 := by
      rw [MemoryEfficientVectorStore.vectorSize, hdims]
      rfl
    rw [this]
    push_cast
    ring
  · show ((s.nextSlot : Int) - (s.freeSlots.length : Int)) * (s.vectorSize : Int)
        + ((s.maxMemoryBytes : Int)
            - ((s.nextSlot : Int) - (s.freeSlots.length : Int)) * (s.vectorSize : Int))
      = (s.maxMemoryBytes : Int)
    ring
  · show (0 : Int) ≤ (s.nextSlot : Int) - (s.freeSlots.length : Int)
    omega
  · show (s.nextSlot : Int) - (s.freeSlots.length : Int) ≤ (s.maxVectors : Int)
    have : s.nextSlot ≤ s.maxVectors := hnext
    omega

/-! ## Claim C6 — deleting a persona

`deletePersona` issues
`UPDATE personas SET is_active = 0, updated_at = ? WHERE id = ?`: it
soft-deletes the persona row and deletes nothing else; the persona's memory
records in `vector_metadata` (and their vectors) are left in place, so the
claimed cascade does not happen. -/

/-- Claim C6 counterexample: after `deletePersona` on a database holding one
persona and one memory record owned by it, the memory record is still
present, and the persona row itself is still present (merely marked
inactive) — no cascade occurred. -/
theorem deletePersona_no_cascade :
    (deletePersona
        { users := [], apiKeys := [],
          personas := [{ id := "p", name := "Alice", isActive := true, updatedAt := 0 }],
          vectorMetadata := [{ id := "v1", personaId := some "p" }] }
        "p" 5).vectorMetadata
      = [{ id := "v1", personaId := some "p" }]
    ∧ (deletePersona
        { users := [], apiKeys := [],
          personas := [{ id := "p", name := "Alice", isActive := true, updatedAt := 0 }],
          vectorMetadata := [{ id := "v1", personaId := some "p" }] }
        "p" 5).personas
      = [{ id := "p", name := "Alice", isActive := false, updatedAt := 5 }] := by
  constructor <;> rfl

/-- Claim C6 (amended): `deletePersona` is a soft delete — it flips the
matching persona row to inactive (refreshing `updated_at`), keeps every
other persona row unchanged, removes no row from any table, and in
particular leaves all vector-metadata (memory) records, users and API keys
untouched. -/
theorem deletePersona_soft_delete (db : Database) (pid : String) (now : Int) :
    (deletePersona db pid now).vectorMetadata = db.vectorMetadata
    ∧ (deletePersona db pid now).users = db.users
    ∧ (deletePersona db pid now).apiKeys = db.apiKeys
    ∧ (deletePersona db pid now).personas.length = db.personas.length
    ∧ ∀ p ∈ db.personas,
        (p.id ≠ pid → p ∈ (deletePersona db pid now).personas)
        ∧ (p.id = pid →
            { p with isActive := false, updatedAt := now }
              ∈ (deletePersona db pid now).personas) := by
  refine ⟨rfl, rfl, rfl, List.length_map _ _, ?_⟩
  intro p hp
  constructor
  · intro hne
    have hf : (if p.id == pid then { p with isActive := false, updatedAt := now }
        else p) = p := by
      rw [if_neg]
      simp [hne]
    exact hf ▸ List.mem_map_of_mem _ hp
  · intro heq
    have hf : (if p.id == pid then { p with isActive := false, updatedAt := now }
        else p) = { p with isActive := false, updatedAt := now } := by
      rw [if_pos]
      simp [heq]
    exact hf ▸ List.mem_map_of_mem _ hp

/-- Witness for `deletePersona_soft_delete`: a two-persona database, where
the untargeted persona survives unchanged and the metadata table is kept. -/
theorem deletePersona_soft_delete_witness :
    (deletePersona
        { users := [], apiKeys := [],
          personas := [{ id := "p", name := "Alice", isActive := true, updatedAt := 0 },
                       { id := "q", name := "Bob", isActive := true, updatedAt := 0 }],
          vectorMetadata := [{ id := "v1", personaId := some "p" }] }
        "p" 5).vectorMetadata
      = [{ id := "v1", personaId := some "p" }]
    ∧ ({ id := "q", name := "Bob", isActive := true, updatedAt := 0 } : PersonaRow)
        ∈ (deletePersona
            { users := [], apiKeys := [],
              personas := [{ id := "p", name := "Alice", isActive := true, updatedAt := 0 },
                           { id := "q", name := "Bob", isActive := true, updatedAt := 0 }],
              vectorMetadata := [{ id := "v1", personaId := some "p" }] }
            "p" 5).personas := by
  have h := deletePersona_soft_delete
    { users := [], apiKeys := [],
      personas := [{ id := "p", name := "Alice", isActive := true, updatedAt := 0 },
                   { id := "q", name := "Bob", isActive := true, updatedAt := 0 }],
      vectorMetadata := [{ id := "v1", personaId := some "p" }] }
    "p" 5
  exact ⟨h.1, (h.2.2.2.2 { id := "q", name := "Bob", isActive := true, updatedAt := 0 }
    (by decide)).1 (by decide)⟩

/-! ## Claim C8 — API key validation

`getApiKeyByHash` only returns a row when the key is active, its owning user
is active, and the expiry is `NULL` or strictly in the future; consequently
an expired or deactivated key never validates. -/

/-- Claim C8: any record returned by `getApiKeyByHash` has a matching hash,
is active, belongs to an active user, and is unexpired (`NULL` expiry or
expiry strictly after `now`); and no deactivated or expired key is ever
returned. -/
theorem getApiKeyByHash_only_valid (db : Database) (keyHash : String) (now : Int) :
    (∀ r, getApiKeyByHash db keyHash now = some r →
        r.1.keyHash = keyHash
        ∧ r.1.isActive = true
        ∧ r.2.isActive = true
        ∧ r.2.id = r.1.userId
        ∧ (r.1.expiresAt = none ∨ ∃ t, r.1.expiresAt = some t ∧ now < t))
    ∧ ∀ k u, (k.isActive = false ∨ ∃ t, k.expiresAt = some t ∧ t ≤ now) →
        getApiKeyByHash db keyHash now ≠ some (k, u) := by
  have main : ∀ r, getApiKeyByHash db keyHash now = some r →
      r.1.keyHash = keyHash
      ∧ r.1.isActive = true
      ∧ r.2.isActive = true
      ∧ r.2.id = r.1.userId
      ∧ (r.1.expiresAt = none ∨ ∃ t, r.1.expiresAt = some t ∧ now < t) := by
    intro r hr
    have hp := List.find?_some hr
    have hmem := List.mem_of_find?_eq_some hr
    rw [List.mem_flatMap] at hmem
    obtain ⟨ak, _, hmap⟩ := hmem
    rw [List.mem_map] at hmap
    obtain ⟨u, hu, hru⟩ := hmap
    have hid : r.2.id = r.1.userId := by
      rw [List.mem_filter] at hu
      have := hu.2
      rw [← hru]
      simpa using this
    unfold apiKeyRowMatches at hp
    simp only [Bool.and_eq_true, beq_iff_eq] at hp
    refine ⟨hp.1.1.1, hp.1.1.2, hp.1.2, hid, ?_⟩
    cases hx : r.1.expiresAt with
    | none => exact Or.inl rfl
    | some t =>
        right
        refine ⟨t, rfl, ?_⟩
        have := hp.2
        rw [hx] at this
        simpa using this
  refine ⟨main, ?_⟩
  intro k u hbad heq
  obtain ⟨_, hact, _, _, hexp⟩ := main (k, u) heq
  rcases hbad with hbad | ⟨t, ht, htle⟩
  · rw [hbad] at hact
    exact Bool.false_ne_true hact
  · rcases hexp with hnone | ⟨t', ht', hlt⟩
    · rw [ht] at hnone
      exact Option.noConfusion hnone
    · rw [ht] at ht'
      have hval : t = t' := by
        injection ht'
      omega

/-- Witness for `getApiKeyByHash_only_valid`: a single active key of an
active user with future expiry is returned and satisfies every condition. -/
theorem getApiKeyByHash_only_valid_witness :
    ({ id := "k1", userId := "u1", keyHash := "h1", isActive := true,
       expiresAt := some 100 } : ApiKeyRow).keyHash = "h1"
    ∧ ({ id := "k1", userId := "u1", keyHash := "h1", isActive := true,
         expiresAt := some 100 } : ApiKeyRow).isActive = true
    ∧ ({ id := "u1", email := "a@b.c", isActive := true } : UserRow).isActive = true
    ∧ ({ id := "u1", email := "a@b.c", isActive := true } : UserRow).id
        = ({ id := "k1", userId := "u1", keyHash := "h1", isActive := true,
             expiresAt := some 100 } : ApiKeyRow).userId
    ∧ (({ id := "k1", userId := "u1", keyHash := "h1", isActive := true,
          expiresAt := some 100 } : ApiKeyRow).expiresAt = none
        ∨ ∃ t, ({ id := "k1", userId := "u1", keyHash := "h1", isActive := true,
                  expiresAt := some 100 } : ApiKeyRow).expiresAt = some t
            ∧ (50 : Int) < t) :=
  (getApiKeyByHash_only_valid
      { users := [{ id := "u1", email := "a@b.c", isActive := true }],
        apiKeys := [{ id := "k1", userId := "u1", keyHash := "h1", isActive := true,
                      expiresAt := some 100 }],
        personas := [], vectorMetadata := [] }
      "h1" 50).1
    ({ id := "k1", userId := "u1", keyHash := "h1", isActive := true,
       expiresAt := some 100 },
      { id := "u1", email := "a@b.c", isActive := true })
    (by rfl)

/-! ## Claim C9 — determinism of the local embedding fallback

`generateDeterministicEmbedding` computes only from the text and the model
name: its seed is `hashString(text)`, its features come from the words,
bigrams and positions of the text, and the ambient randomness source is
never consulted.  Repeated calls with equal arguments therefore return
element-wise identical vectors. -/

theorem updAdd_length (l : List ℝ) (i : Nat) (x : ℝ) :
    (updAdd l i x).length = l.length :=
  List.length_set l i _

theorem foldl_updAdd_length {β : Type} (f : List ℝ → β → List ℝ)
    (hf : ∀ e b, (f e b).length = e.length) :
    ∀ (l : List β) (emb : List ℝ), (l.foldl f emb).length = emb.length := by
  intro l
  induction l with
  | nil => intro emb; rfl
  | cons b bs ih =>
      intro emb
      rw [List.foldl_cons, ih, hf]

theorem seedInitList_length (dims seed : Nat) :
    (seedInitList dims seed).length = dims := by
  induction dims generalizing seed with
  | zero => rfl
  | succ n ih => simp [seedInitList, ih]

theorem applyWordFeature_length (dims wordIndex : Nat) (word : String)
    (emb : List ℝ) : (applyWordFeature dims wordIndex word emb).length = emb.length := by
  unfold applyWordFeature
  exact foldl_updAdd_length _ (fun e b => updAdd_length _ _ _) _ _

theorem applyWordFeatures_length (dims : Nat) (words : List String)
    (emb : List ℝ) : (applyWordFeatures dims words emb).length = emb.length := by
  unfold applyWordFeatures
  exact foldl_updAdd_length _ (fun e b => applyWordFeature_length _ _ _ _) _ _

theorem applyBigrams_length (dims : Nat) :
    ∀ (chars : List Char) (emb : List ℝ),
      (applyBigrams dims chars emb).length = emb.length
  | [], _ => rfl
  | [_], _ => rfl
  | c1 :: c2 :: rest, emb => by
      rw [applyBigrams, applyBigrams_length dims (c2 :: rest), updAdd_length]

theorem applyPositional_length (dims textLen wordCount : Nat) (emb : List ℝ) :
    (applyPositional dims textLen wordCount emb).length = emb.length := by
  unfold applyPositional
  exact foldl_updAdd_length _
    (fun e b => (updAdd_length _ _ _).trans (updAdd_length _ _ _)) _ _

/-- Claim C9: the local fallback embedding is deterministic — its output is
independent of the runtime's randomness source, so two calls with equal
text and equal model name return element-wise identical vectors — and the
vector has the configured model dimensionality. -/
theorem generateDeterministicEmbedding_deterministic (e1 e2 : Nat → ℝ)
    (text model : String) :
    generateDeterministicEmbedding e1 text model
      = generateDeterministicEmbedding e2 text model
    ∧ (generateDeterministicEmbedding e1 text model).length
      = localModelDims model := by
  refine ⟨rfl, ?_⟩
  unfold generateDeterministicEmbedding
  rw [applyPositional_length, applyBigrams_length, applyWordFeatures_length,
    seedInitList_length]
